import Mathlib

/-!
Shallow embedding of the core of the `qrcode-generator` crate (`src/lib.rs`):
the QR segment-mode optimizer (character classification, per-version cost
model, the dynamic program over the three modes, run collapse into segments,
and the version search), the capacity computation, and the thin
matrix/image rendering wrappers.

Machine integers (`usize`) are modelled as `Nat`; the one place where a
signed-to-unsigned cast matters (`i8 as usize` in `table_get`) is modelled
explicitly modulo `2 ^ 64`.  Fallible code (Rust panics: out-of-bounds
slice indexing, `Option::unwrap`) is modelled with `Option`: `none` means
the Rust code panics.

The external `qrcodegen` collaborator is out of scope; its `QrSegment`
constructors are modelled as content-carrying constructors, its `QrCode`
symbol as an abstract size plus module predicate, and its text/segment
encoders as an abstract function argument.
-/

inductive Mode where
  | Numeric
  | Alphanumeric
  | Byte
  deriving DecidableEq, Repr

inductive QrCodeEcc where
  | Low
  | Medium
  | Quartile
  | High
  deriving DecidableEq, Repr

/-- External `qrcodegen::QrSegment` modelled as a content-carrying value:
`make_numeric`, `make_alphanumeric` keep the code points, `make_bytes`
keeps the byte vector. -/
inductive QrSegment where
  | numeric : List Char → QrSegment
  | alphanumeric : List Char → QrSegment
  | bytes : List Nat → QrSegment
  deriving DecidableEq, Repr

/-- The static `SORTED_ALPHANUMERIC_CHARSET: [char; 45]` array, in the exact
order it is written in the source.  Note that the source order is NOT
sorted: `'.'` (0x2E) is written at index 1, before `'$'` (0x24). -/
def SORTED_ALPHANUMERIC_CHARSET : List Char :=
  [' ', '.', '$', '%', '*', '+', '-', '/',
   '0', '1', '2', '3', '4', '5', '6', '7', '8', '9',
   ':',
   'A', 'B', 'C', 'D', 'E', 'F', 'G', 'H', 'I', 'J', 'K', 'L', 'M',
   'N', 'O', 'P', 'Q', 'R', 'S', 'T', 'U', 'V', 'W', 'X', 'Y', 'Z']

/-- `static ECC_CODEWORDS_PER_BLOCK: [[i8; 41]; 4]` (rows: Low, Medium,
Quartile, High; column 0 is the `-1` placeholder). -/
def ECC_CODEWORDS_PER_BLOCK : List (List Int) :=
  [[-1, 7, 10, 15, 20, 26, 18, 20, 24, 30, 18, 20, 24, 26, 30, 22, 24, 28, 30, 28, 28, 28, 28, 30, 30, 26, 28, 30, 30, 30, 30, 30, 30, 30, 30, 30, 30, 30, 30, 30, 30],
   [-1, 10, 16, 26, 18, 24, 16, 18, 22, 22, 26, 30, 22, 22, 24, 24, 28, 28, 26, 26, 26, 26, 28, 28, 28, 28, 28, 28, 28, 28, 28, 28, 28, 28, 28, 28, 28, 28, 28, 28, 28],
   [-1, 13, 22, 18, 26, 18, 24, 18, 22, 20, 24, 28, 26, 24, 20, 30, 24, 28, 28, 26, 30, 28, 30, 30, 30, 30, 28, 30, 30, 30, 30, 30, 30, 30, 30, 30, 30, 30, 30, 30, 30],
   [-1, 17, 28, 22, 16, 22, 28, 26, 26, 24, 28, 24, 28, 22, 24, 24, 30, 28, 28, 26, 28, 30, 24, 30, 30, 30, 30, 30, 30, 30, 30, 30, 30, 30, 30, 30, 30, 30, 30, 30, 30]]

/-- `static NUM_ERROR_CORRECTION_BLOCKS: [[i8; 41]; 4]`. -/
def NUM_ERROR_CORRECTION_BLOCKS : List (List Int) :=
  [[-1, 1, 1, 1, 1, 1, 2, 2, 2, 2, 4, 4, 4, 4, 4, 6, 6, 6, 6, 7, 8, 8, 9, 9, 10, 12, 12, 12, 13, 14, 15, 16, 17, 18, 19, 19, 20, 21, 22, 24, 25],
   [-1, 1, 1, 1, 2, 2, 4, 4, 4, 5, 5, 5, 8, 9, 9, 10, 10, 11, 13, 14, 16, 17, 17, 18, 20, 21, 23, 25, 26, 28, 29, 31, 33, 35, 37, 38, 40, 43, 45, 47, 49],
   [-1, 1, 1, 2, 2, 4, 4, 6, 6, 8, 8, 8, 10, 12, 16, 12, 17, 16, 18, 21, 20, 23, 23, 25, 27, 29, 34, 34, 35, 38, 40, 43, 45, 48, 51, 53, 56, 59, 62, 65, 68],
   [-1, 1, 1, 2, 4, 4, 4, 5, 6, 8, 8, 11, 11, 16, 16, 18, 16, 19, 21, 25, 25, 25, 34, 30, 32, 35, 37, 40, 42, 45, 48, 51, 54, 57, 60, 63, 66, 70, 74, 77, 81]]

/-- `fn is_numeric(c: char) -> bool { '0' <= c && c <= '9' }` -/
def is_numeric (c : Char) : Bool :=
  decide ('0' ≤ c ∧ c ≤ '9')

/-- The loop of Rust `core`'s `slice::binary_search_by` (the classic
implementation used by the Rust toolchains contemporary with this crate):
`while size > 1 { let half = size / 2; let mid = base + half;
base = if s[mid] > target { base } else { mid }; size -= half; }`.
Returns the final `base`; the fuel argument only bounds the (always
terminating) loop and is passed `s.length`, which is ample. -/
def bsearchLoop (s : List Char) (c : Char) : Nat → Nat → Nat → Nat
  | 0, base, _ => base
  | fuel + 1, base, size =>
    if 1 < size then
      let half := size / 2
      let mid := base + half
      let e := s.getD mid (Char.ofNat 0)
      bsearchLoop s c fuel (if c < e then base else mid) (size - half)
    else base

/-- `fn is_alphanumeric(c: char) -> bool
{ SORTED_ALPHANUMERIC_CHARSET.binary_search(&c).is_ok() }`:
after the search loop, `binary_search` reports `Ok` exactly when the
element at the final `base` equals the target. -/
def is_alphanumeric (c : Char) : Bool :=
  let s := SORTED_ALPHANUMERIC_CHARSET
  if s.length = 0 then false
  else s.getD (bsearchLoop s c s.length 0 s.length) (Char.ofNat 0) == c

/-- `const NUMERIC: [usize; 4] = [0x1, 10, 12, 14];` -/
def NUMERIC : List Nat := [1, 10, 12, 14]

/-- `const ALPHANUMERIC: [usize; 4] = [0x2, 9, 11, 13];` -/
def ALPHANUMERIC : List Nat := [2, 9, 11, 13]

/-- `const BYTE: [usize; 4] = [0x4, 8, 16, 16];` -/
def BYTE : List Nat := [4, 8, 16, 16]

/-- The index expression `(version + 7) / 17` of
`Mode::get_num_char_count_bits`. -/
def versionClassIndex (version : Nat) : Nat := (version + 7) / 17

/-- `Mode::get_mode_bits`.  In the source the match arms are the bare
identifiers `Numeric`, `Alphanumeric`, `Byte`; the enum variants are not
imported (`use Mode::*` is absent) and no constants with those exact names
exist, so each arm is an irrefutable binding pattern.  The first arm
therefore matches every variant and the method returns `NUMERIC[0]`
unconditionally. -/
def Mode.get_mode_bits (_ : Mode) : Nat := NUMERIC.getD 0 0

/-- `Mode::get_num_char_count_bits`.  As in `get_mode_bits`, the match arms
are binding patterns, so the method returns `NUMERIC[index]` for every
variant, with `index = (version + 7) / 17`. -/
def Mode.get_num_char_count_bits (_ : Mode) (version : Nat) : Nat :=
  NUMERIC.getD (versionClassIndex version) 0

/-- Rust's `i8 as usize` cast (sign extension to 64 bits). -/
def i8_as_usize (x : Int) : Nat := (x.emod (2 ^ 64)).toNat

/-- `fn table_get(table, ver, ecc) -> usize { table[ordinal][ver] as usize }` -/
def table_get (table : List (List Int)) (ver : Nat) (ecc : QrCodeEcc) : Nat :=
  let ordinal : Nat :=
    match ecc with
    | QrCodeEcc.Low => 0
    | QrCodeEcc.Medium => 1
    | QrCodeEcc.Quartile => 2
    | QrCodeEcc.High => 3
  i8_as_usize ((table.getD ordinal []).getD ver (-1))

/-- `fn get_num_raw_data_modules(ver: usize) -> usize`. -/
def get_num_raw_data_modules (ver : Nat) : Nat :=
  let result := (16 * ver + 128) * ver + 64
  if 2 ≤ ver then
    let numalign := ver / 7 + 2
    let result := result - ((25 * numalign - 10) * numalign - 55)
    if 7 ≤ ver then result - 36 else result
  else result

/-- `fn get_num_data_codewords(ver, ecl) -> usize`. -/
def get_num_data_codewords (ver : Nat) (ecl : QrCodeEcc) : Nat :=
  get_num_raw_data_modules ver / 8 -
    table_get ECC_CODEWORDS_PER_BLOCK ver ecl *
      table_get NUM_ERROR_CORRECTION_BLOCKS ver ecl

/-- Modelled from the spec (claim C7's formula): the per-version raw data
module count as the specification words it, with
`a = v/6 + 2` (integer division) as the alignment-pattern count. -/
def claimedRawDataModules (ver : Nat) : Nat :=
  let result := (16 * ver + 128) * ver + 64
  if 2 ≤ ver then
    let a := ver / 6 + 2
    let result := result - ((25 * a - 10) * a - 55)
    if 7 ≤ ver then result - 36 else result
  else result

/-- Rust `char::len_utf8`. -/
def len_utf8 (c : Char) : Nat :=
  if c.toNat < 0x80 then 1
  else if c.toNat < 0x800 then 2
  else if c.toNat < 0x10000 then 3
  else 4

/-- UTF-8 encoding of one scalar value, as a byte list. -/
def charUtf8 (c : Char) : List Nat :=
  let n := c.toNat
  if n < 0x80 then [n]
  else if n < 0x800 then
    [0xC0 ||| (n >>> 6), 0x80 ||| (n &&& 0x3F)]
  else if n < 0x10000 then
    [0xE0 ||| (n >>> 12), 0x80 ||| ((n >>> 6) &&& 0x3F), 0x80 ||| (n &&& 0x3F)]
  else
    [0xF0 ||| (n >>> 18), 0x80 ||| ((n >>> 12) &&& 0x3F),
     0x80 ||| ((n >>> 6) &&& 0x3F), 0x80 ||| (n &&& 0x3F)]

/-- `String::into_bytes` of a collected `&[char]`: UTF-8 bytes. -/
def utf8Bytes (s : List Char) : List Nat := s.flatMap charUtf8

/-- `let mode_types = [Mode::Byte, Mode::Alphanumeric, Mode::Numeric];` -/
def modeTypes : List Mode := [Mode.Byte, Mode.Alphanumeric, Mode.Numeric]

/-- `head_costs[i] = (4 + mode_types[i].get_num_char_count_bits(version)) * 6` -/
def headCosts (version : Nat) : List Nat :=
  modeTypes.map (fun m => (4 + m.get_num_char_count_bits version) * 6)

/-- Index of a mode in `mode_types`; used for the source's
`for j in 0..NUM_MODES { if mode_types[j] == cur_mode { ... } }` scans. -/
def modeIndex (m : Mode) : Nat :=
  match m with
  | Mode.Byte => 0
  | Mode.Alphanumeric => 1
  | Mode.Numeric => 2

/-- One character's "continue in the same mode" step of
`compute_character_modes`: `cur_costs` starts as `[0; 3]`;
entry 0 (`Byte`) is always set to `prev_costs[0] + len_utf8 * 8 * 6`,
entry 1 (`Alphanumeric`) to `prev_costs[1] + 33` when the character is
alphanumeric, entry 2 (`Numeric`) to `prev_costs[2] + 20` when it is
numeric; `char_modes[i]` is set accordingly. -/
def continueStep (prev : List Nat) (c : Char) : List Nat × List (Option Mode) :=
  ([prev.getD 0 0 + len_utf8 c * 8 * 6,
    if is_alphanumeric c then prev.getD 1 0 + 33 else 0,
    if is_numeric c then prev.getD 2 0 + 20 else 0],
   [some Mode.Byte,
    if is_alphanumeric c then some Mode.Alphanumeric else none,
    if is_numeric c then some Mode.Numeric else none])

/-- The switch candidate `(cur_costs[k] + 5) / 6 * 6 + head_costs[j]`. -/
def switchCand (costs : List Nat) (head : List Nat) (j k : Nat) : Nat :=
  (costs.getD k 0 + 5) / 6 * 6 + head.getD j 0

/-- One `(j, k)` iteration of the inner double loop of
`compute_character_modes`: if `char_modes[i][k].is_some() &&
(char_modes[i][j].is_none() || new_cost < cur_costs[j])` then
`cur_costs[j] = new_cost; char_modes[i][j] = Some(mode_types[k]);`. -/
def switchUpdate (head : List Nat) (st : List Nat × List (Option Mode))
    (p : Nat × Nat) : List Nat × List (Option Mode) :=
  let j := p.1
  let k := p.2
  let new_cost := switchCand st.1 head j k
  if (st.2.getD k none).isSome ∧
      ((st.2.getD j none).isNone ∨ new_cost < st.1.getD j 0) then
    (st.1.set j new_cost, st.2.set j (some (modeTypes.getD k Mode.Byte)))
  else st

/-- The `(j, k)` pairs of the nested `for j in 0..3 { for k in 0..3 }` loops,
in evaluation order. -/
def pairList : List (Nat × Nat) :=
  (List.range 3).flatMap (fun j => (List.range 3).map (fun k => (j, k)))

/-- The full inner double loop, applied in source order (the updates are
in-place: later pairs see earlier updates). -/
def switchPass (head : List Nat) (st : List Nat × List (Option Mode)) :
    List Nat × List (Option Mode) :=
  pairList.foldl (switchUpdate head) st

/-- The forward pass of `compute_character_modes`: starting from
`prev_costs = head_costs.clone()`, fold each character through the
continue step and the switch double loop, collecting each character's
`char_modes[i]` row.  Returns the final `prev_costs` and the table. -/
def dpFold (code_points : List Char) (version : Nat) :
    List Nat × List (List (Option Mode)) :=
  code_points.foldl
    (fun st c =>
      let cell := switchPass (headCosts version) (continueStep st.1 c)
      (cell.1, st.2 ++ [cell.2]))
    (headCosts version, [])

/-- The final-mode scan of `compute_character_modes`:
`cur_mode = None; min_cost = 0; for i in 0..3 { if cur_mode.is_none() ||
prev_costs[i] < min_cost { ... } }`. -/
def argminMode (costs : List Nat) : Option Mode :=
  ((List.range 3).foldl
    (fun acc i =>
      if acc.1.isNone ∨ costs.getD i 0 < acc.2 then
        (some (modeTypes.getD i Mode.Byte), costs.getD i 0)
      else acc)
    ((none : Option Mode), 0)).1

/-- `fn compute_character_modes(code_points, version) -> Vec<Mode>`:
forward DP, final `argmin`, then the backward trace
`for i in (0..len).rev() { cur_mode = char_modes[i][j].unwrap();
result.push(cur_mode); }` with `j` the index of the current mode.
Note the source pushes the traced modes while walking `i` downwards and
never reverses `result`, so the returned list is in reverse character
order.  `none` models the `unwrap` panics. -/
def compute_character_modes (code_points : List Char) (version : Nat) :
    Option (List Mode) := do
  let dp := dpFold code_points version
  let first ← argminMode dp.1
  let st ← dp.2.reverse.foldlM
    (fun (st : Mode × List Mode) row => do
      let m ← row.getD (modeIndex st.1) none
      pure (m, st.2 ++ [m]))
    (first, ([] : List Mode))
  pure st.2

/-- Rust slice indexing `&l[a..b]`: panics (`none`) unless `a ≤ b ≤ len`. -/
def sliceRange (l : List Char) (a b : Nat) : Option (List Char) :=
  if a ≤ b ∧ b ≤ l.length then some ((l.take b).drop a) else none

/-- Segment construction for one collapsed run, by mode:
`QrSegment::make_bytes(&utf8)`, `make_numeric(s)`, `make_alphanumeric(s)`. -/
def mkSeg (m : Mode) (s : List Char) : QrSegment :=
  match m with
  | Mode.Byte => QrSegment.bytes (utf8Bytes s)
  | Mode.Numeric => QrSegment.numeric s
  | Mode.Alphanumeric => QrSegment.alphanumeric s

/-- The `loop` of `split_into_segments`, with its exact control flow:
`i += 1; if i < len && char_modes[i] == cur_mode { continue; }
let s = &code_points[start..(i - start)]; push segment;
if i >= len { return result; } cur_mode = char_modes[i]; start = i;`.
The slice bound really is `i - start` in the source.  Fuel only bounds the
loop (which advances `i` every iteration) and is passed `len + 1`. -/
def splitLoop (code_points : List Char) (char_modes : List Mode) :
    Nat → Nat → Mode → Nat → List QrSegment → Option (List QrSegment)
  | 0, _, _, _, _ => none
  | fuel + 1, i, cur_mode, start, acc =>
    let i := i + 1
    if i < code_points.length ∧ char_modes.getD i cur_mode == cur_mode then
      splitLoop code_points char_modes fuel i cur_mode start acc
    else
      match sliceRange code_points start (i - start) with
      | none => none
      | some s =>
        let acc := acc ++ [mkSeg cur_mode s]
        if code_points.length ≤ i then some acc
        else
          splitLoop code_points char_modes fuel i
            (char_modes.getD i cur_mode) i acc

/-- `fn split_into_segments(code_points, char_modes) -> Vec<QrSegment>`.
`char_modes[0]` panics (`none`) on an empty mode list. -/
def split_into_segments (code_points : List Char) (char_modes : List Mode) :
    Option (List QrSegment) :=
  match char_modes.head? with
  | none => none
  | some cur => splitLoop code_points char_modes (code_points.length + 1) 0 cur 0 []

/-- `fn make_segments_optimally_version(code_points, version)`. -/
def make_segments_optimally_version (code_points : List Char) (version : Nat) :
    Option (List QrSegment) := do
  let char_modes ← compute_character_modes code_points version
  split_into_segments code_points char_modes

/-- `fn make_segments_optimally(code_points, ecc)`.  The source's loop over
`version in 1..=40` reassigns `segs` at versions 1, 10 and 27, computes
`data_capacity_bits = get_num_data_codewords(version, ecc) * 8` and then —
the body is a bare `// TODO` — neither compares the two nor returns; after
the loop the function returns `vec![]`.  The only observable behaviour is
therefore: panic if one of the three optimizer runs panics, else return
the empty vector.  The capacity computations are total for versions 1–40
and have no effect. -/
def make_segments_optimally (code_points : List Char) (ecc : QrCodeEcc) :
    Option (List QrSegment) := do
  let _ ← make_segments_optimally_version code_points 1
  let _ ← make_segments_optimally_version code_points 10
  let _ ← make_segments_optimally_version code_points 27
  let _ := (List.range 40).map (fun v => get_num_data_codewords (v + 1) ecc * 8)
  pure []

/-- Whether character `c` is representable in the mode with index `k`
(`0 = Byte`, `1 = Alphanumeric`, `2 = Numeric`), as tested by the continue
step of the DP. -/
def canEncode (k : Nat) (c : Char) : Bool :=
  if k = 0 then true
  else if k = 1 then is_alphanumeric c
  else is_numeric c

/-- The per-character marginal cost added by the continue step for the mode
with index `k`: `len_utf8 * 8 * 6` for Byte, `33` for Alphanumeric,
`20` for Numeric. -/
def marginalCost (k : Nat) (c : Char) : Nat :=
  if k = 0 then len_utf8 c * 8 * 6
  else if k = 1 then 33
  else 20

/-- The DP cost array after the first `n` characters have been fully
processed (continue step plus switch double loop); for `n = 0` this is
`head_costs` itself. -/
def dpCostsAfter (code_points : List Char) (version n : Nat) : List Nat :=
  (dpFold (code_points.take n) version).1

/-- The value of the switch candidate `(cur_costs[k] + 5) / 6 * 6 +
head_costs[j]` examined while character `i` is being processed, at the
moment the double loop reaches the pair `(j, k)` — i.e. with `cur_costs`
as already mutated by the pairs evaluated before `(j, k)`. -/
def dpSwitchCandidate (code_points : List Char) (version i j k : Nat) : Nat :=
  let head := headCosts version
  let st0 := continueStep (dpCostsAfter code_points version i) (code_points.getD i 'A')
  let st := (pairList.take (3 * j + k)).foldl (switchUpdate head) st0
  switchCand st.1 head j k

/-- External `qrcodegen::QrCode` symbol: side length and module predicate. -/
structure QrCode where
  size : Nat
  module : Nat → Nat → Bool

/-- `fn generate_qrcode(data, ecc)`: both the UTF-8 text branch and the
binary branch delegate to the external encoder (modelled as the abstract
argument `encode`) and map its `None` to the "the data is too long" error;
the successful symbol is returned unchanged either way. -/
def generate_qrcode (encode : List Nat → QrCodeEcc → Option QrCode)
    (data : List Nat) (ecc : QrCodeEcc) : Option QrCode :=
  encode data ecc

/-- `fn to_matrix_inner(qr: QrCode) -> Vec<Vec<bool>>`: for `y` in
`0..size`, collect the row of `qr.get_module(x, y)` for `x` in `0..size`. -/
def to_matrix_inner (qr : QrCode) : List (List Bool) :=
  (List.range qr.size).map (fun y => (List.range qr.size).map (fun x => qr.module x y))

/-- `pub fn to_matrix(data, ecc)`. -/
def to_matrix (encode : List Nat → QrCodeEcc → Option QrCode)
    (data : List Nat) (ecc : QrCodeEcc) : Option (List (List Bool)) :=
  (generate_qrcode encode data ecc).map to_matrix_inner

/-- The darkening of one module's square in `to_image_inner`:
`for j in y..(y + point_size) { let offset = j * size;
for i in x..(x + point_size) { img_raw[offset + i] = 0; } }`. -/
def paintSquare (buf : List Nat) (size x y point_size : Nat) : List Nat :=
  (List.range point_size).foldl
    (fun buf dj =>
      let offset := (y + dj) * size
      (List.range point_size).foldl
        (fun buf di => buf.set (offset + (x + di)) 0) buf)
    buf

/-- `fn to_image_inner(qr: QrCode, size: usize) -> Result<Vec<u8>, Error>`. -/
def to_image_inner (qr : QrCode) (size : Nat) : Except String (List Nat) :=
  let margin_size := 1
  let s := qr.size
  let data_length := s
  let data_length_with_margin := data_length + 2 * margin_size
  let point_size := size / data_length_with_margin
  if point_size = 0 then Except.error "the size is too small"
  else
    let margin := (size - point_size * data_length) / 2
    let length := size * size
    let img_raw : List Nat := List.replicate length 255
    Except.ok <|
      (List.range s).foldl
        (fun buf i =>
          (List.range s).foldl
            (fun buf j =>
              if qr.module i j then
                paintSquare buf size (i * point_size + margin)
                  (j * point_size + margin) point_size
              else buf)
            buf)
        img_raw

/-- `pub fn to_image(data, ecc, size)`: the generation error ("the data is
too long") propagates, otherwise `to_image_inner` runs. -/
def to_image (encode : List Nat → QrCodeEcc → Option QrCode)
    (data : List Nat) (ecc : QrCodeEcc) (size : Nat) : Except String (List Nat) :=
  match generate_qrcode encode data ecc with
  | none => Except.error "the data is too long"
  | some qr => to_image_inner qr size

theorem getD_set_ne (l : List Nat) (m k : Nat) (v d : Nat) (h : m ≠ k) :
    (l.set m v).getD k d = l.getD k d := by
  rw [List.getD_eq_getElem?_getD, List.getD_eq_getElem?_getD, List.getElem?_set_ne h]

theorem switchUpdate_costs_getD (head : List Nat)
    (st : List Nat × List (Option Mode)) (p : Nat × Nat) (k : Nat)
    (h : p.1 ≠ k) :
    (switchUpdate head st p).1.getD k 0 = st.1.getD k 0 := by
  unfold switchUpdate
  dsimp only
  split
  · exact getD_set_ne _ _ _ _ _ h
  · rfl

theorem switchSteps_costs_getD (head : List Nat) (k : Nat) :
    ∀ (ps : List (Nat × Nat)) (st : List Nat × List (Option Mode)),
      (∀ p ∈ ps, p.1 ≠ k) →
      (ps.foldl (switchUpdate head) st).1.getD k 0 = st.1.getD k 0 := by
  intro ps
  induction ps with
  | nil => intro st _; rfl
  | cons p ps ih =>
    intro st h
    rw [List.foldl_cons, ih _ (fun q hq => h q (List.mem_cons_of_mem _ hq)),
      switchUpdate_costs_getD _ _ _ _ (h p (List.mem_cons_self _ _))]

theorem continueStep_costs_getD (prev : List Nat) (c : Char) (k : Nat)
    (hk : k < 3) (hc : canEncode k c = true) :
    (continueStep prev c).1.getD k 0 = prev.getD k 0 + marginalCost k c := by
  interval_cases k
  · simp [continueStep, marginalCost]
  · simp only [canEncode] at hc
    norm_num at hc
    simp [continueStep, marginalCost, hc]
  · simp only [canEncode] at hc
    norm_num at hc
    simp [continueStep, marginalCost, hc]

theorem pairList_take_fst (j k : Nat) (hjk : j < k) (hk : k < 3) :
    ∀ p ∈ pairList.take (3 * j + k), p.1 ≠ k := by
  have hj : j < 3 := lt_trans hjk hk
  interval_cases j <;> interval_cases k <;> decide

/-- C1: the claim says `make_segments_optimally` returns the segment set of
the current version-class boundary at the first version 1–40 whose data
capacity covers it, and fails with a data-too-long condition otherwise.
The code instead always returns the empty vector: at the input `"1"` with
ECC Low the version-1 segmentation is the single segment `numeric "1"` and
version 1 already has 19 × 8 = 152 data bits of capacity, yet the function
returns `[]`. -/
theorem C1_make_segments_optimally_returns_empty :
    make_segments_optimally ['1'] QrCodeEcc.Low = some [] ∧
    make_segments_optimally_version ['1'] 1 = some [QrSegment.numeric ['1']] ∧
    get_num_data_codewords 1 QrCodeEcc.Low * 8 = 152 :=
  ⟨rfl, rfl, rfl⟩

/-- C2: the claim says concatenating the literal content of the segments
produced by `split_into_segments` reconstructs the input.  With input
`['A', '1']` and modes `[Alphanumeric, Numeric]` the second run's slice is
`&code_points[1..(2 - 1)]`, i.e. empty, so the character `'1'` is dropped:
the concatenated content is `['A']`, not `['A', '1']`. -/
theorem C2_split_into_segments_drops_chars :
    split_into_segments ['A', '1'] [Mode.Alphanumeric, Mode.Numeric] =
      some [QrSegment.alphanumeric ['A'], QrSegment.numeric []] ∧
    ['A'] ++ ([] : List Char) ≠ ['A', '1'] :=
  ⟨rfl, by decide⟩

set_option maxRecDepth 100000 in
/-- C3: the claim says every Numeric segment produced by
`make_segments_optimally_version` contains only ASCII digits.  For the
input `"AAAAAAA1111111"` at version 1 the optimizer assigns Alphanumeric
to the seven letters and Numeric to the seven digits, but the traceback
emits the per-character modes in reverse order and the split uses the
wrong slice bounds, so the function returns a Numeric segment holding the
seven letters `'A'` (which are not digits). -/
theorem C3_numeric_segment_with_letters :
    make_segments_optimally_version
        ['A', 'A', 'A', 'A', 'A', 'A', 'A', '1', '1', '1', '1', '1', '1', '1'] 1 =
      some [QrSegment.numeric ['A', 'A', 'A', 'A', 'A', 'A', 'A'],
        QrSegment.alphanumeric []] ∧
    is_numeric 'A' = false :=
  ⟨by decide, rfl⟩

/-- C4: the claim says `is_alphanumeric(c)` is true exactly for the 45
characters of the QR alphanumeric charset.  The static table is not in
sorted order (`'.'` is written at index 1, before `'$'`), so the binary
search misses both `'.'` and `'$'` even though they are members of the
table (and of the charset). -/
theorem C4_is_alphanumeric_misses_members :
    is_alphanumeric '.' = false ∧ '.' ∈ SORTED_ALPHANUMERIC_CHARSET ∧
    is_alphanumeric '$' = false ∧ '$' ∈ SORTED_ALPHANUMERIC_CHARSET := by
  decide

/-- C5: the claim says `get_mode_bits` returns 0b0001/0b0010/0b0100 per
variant.  Because the match arms are binding patterns, the method returns
`NUMERIC[0] = 0b0001` for every variant, although the constant tables do
hold the intended per-variant values 0b0010 and 0b0100 at index 0. -/
theorem C5_get_mode_bits_constant :
    Mode.get_mode_bits Mode.Alphanumeric = 1 ∧
    Mode.get_mode_bits Mode.Byte = 1 ∧
    ALPHANUMERIC.getD 0 0 = 2 ∧ BYTE.getD 0 0 = 4 := by
  decide

set_option maxRecDepth 100000 in
/-- C6 (counterexample): the claim says each switch-to-m candidate cost is
the cost of the prefix ending at character `i - 1` in mode m′, rounded up
to a multiple of 6, plus the head cost of m.  At input `['1', '2']`,
version 1, character index 1, m = Byte (j = 0), m′ = Numeric (k = 2), the
candidate actually examined is 102 while the claimed value is
`roundUp6(cost[0][Numeric]) + head = (50 + 5)/6*6 + 30 = 84`: the code's
candidate is computed from `cur_costs`, which already includes character
1's marginal cost of 20 in mode Numeric. -/
theorem C6_counterexample_switch_candidate :
    dpSwitchCandidate ['1', '2'] 1 1 0 2 ≠
      ((dpCostsAfter ['1', '2'] 1 1).getD 2 0 + 5) / 6 * 6 +
        (headCosts 1).getD 0 0 := by
  decide

/-- C6 (amended): each switch-to-m candidate cost equals the running cost
of the prefix ending at character `i` (not `i - 1`) in mode m′, rounded up
to a multiple of 6, plus the head cost of m, `6 × (4 + char-count bits)`.
Stated for the pairs `(m, m′)` examined before any in-place update to
entry m′ (that is, m before m′ in the evaluation order Byte,
Alphanumeric, Numeric) with character `i` representable in m′: there the
running cost is the final cost at `i - 1` in m′ plus m′'s marginal cost
for character `i`. -/
theorem C6_switch_candidate_cost (code_points : List Char) (version i j k : Nat)
    (_hi : 1 ≤ i) (_hil : i < code_points.length) (hjk : j < k) (hk : k < 3)
    (hc : canEncode k (code_points.getD i 'A') = true) :
    dpSwitchCandidate code_points version i j k =
      ((dpCostsAfter code_points version i).getD k 0 +
          marginalCost k (code_points.getD i 'A') + 5) / 6 * 6 +
        (headCosts version).getD j 0 := by
  unfold dpSwitchCandidate switchCand
  dsimp only
  rw [switchSteps_costs_getD _ _ _ _ (pairList_take_fst j k hjk hk),
    continueStep_costs_getD _ _ _ hk hc]

/-- C6 (witness): the amended statement at input `['1', '2']`, version 1,
character index 1, m = Byte, m′ = Numeric. -/
theorem C6_switch_candidate_cost_witness :
    1 ≤ 1 ∧ 1 < (['1', '2'] : List Char).length ∧ 0 < 2 ∧ 2 < 3 ∧
    canEncode 2 ((['1', '2'] : List Char).getD 1 'A') = true ∧
    dpSwitchCandidate ['1', '2'] 1 1 0 2 =
      ((dpCostsAfter ['1', '2'] 1 1).getD 2 0 +
          marginalCost 2 ((['1', '2'] : List Char).getD 1 'A') + 5) / 6 * 6 +
        (headCosts 1).getD 0 0 :=
  ⟨by decide, by decide, by decide, by decide, by decide,
    C6_switch_candidate_cost ['1', '2'] 1 1 0 2 (by decide) (by decide)
      (by decide) (by decide) (by decide)⟩

/-- C7 (counterexample): the claim subtracts `(25a - 10)a - 55` with
`a = v/6 + 2`, but the source computes `numalign = ver / 7 + 2`.  They
first differ at v = 6: the code yields 1383, the claimed formula 1268. -/
theorem C7_counterexample_raw_data_modules :
    get_num_raw_data_modules 6 = 1383 ∧ claimedRawDataModules 6 = 1268 ∧
    get_num_raw_data_modules 6 ≠ claimedRawDataModules 6 := by
  decide

/-- C7 (amended): for versions 1–40, `get_num_raw_data_modules(v)` equals
`(16v + 128)v + 64`, minus `(25a - 10)a - 55` with `a = v/7 + 2` (integer
division) when `v ≥ 2`, and additionally minus 36 when `v ≥ 7`. -/
theorem C7_raw_data_modules_formula (v : Nat) (h1 : 1 ≤ v) (h2 : v ≤ 40) :
    get_num_raw_data_modules v =
      (16 * v + 128) * v + 64 -
        ((if 2 ≤ v then (25 * (v / 7 + 2) - 10) * (v / 7 + 2) - 55 else 0) +
          (if 7 ≤ v then 36 else 0)) := by
  interval_cases v <;> decide

/-- C7 (witness): the amended formula at v = 7. -/
theorem C7_raw_data_modules_formula_witness :
    1 ≤ 7 ∧ 7 ≤ 40 ∧
    get_num_raw_data_modules 7 =
      (16 * 7 + 128) * 7 + 64 -
        ((if 2 ≤ 7 then (25 * (7 / 7 + 2) - 10) * (7 / 7 + 2) - 55 else 0) +
          (if 7 ≤ 7 then 36 else 0)) :=
  ⟨by decide, by decide, C7_raw_data_modules_formula 7 (by decide) (by decide)⟩

/-- C8: for versions 1–40, the version-class index `(v + 7) / 17` is 0 for
versions 1–9, 1 for versions 10–26 and 2 for versions 27–40, and
`get_num_char_count_bits` selects the char-count-field width by that
index. -/
theorem C8_version_class_index (v : Nat) (h1 : 1 ≤ v) (h2 : v ≤ 40) :
    versionClassIndex v = (if v ≤ 9 then 0 else if v ≤ 26 then 1 else 2) ∧
    Mode.get_num_char_count_bits Mode.Numeric v =
      NUMERIC.getD (versionClassIndex v) 0 ∧
    Mode.get_num_char_count_bits Mode.Alphanumeric v =
      NUMERIC.getD (versionClassIndex v) 0 ∧
    Mode.get_num_char_count_bits Mode.Byte v =
      NUMERIC.getD (versionClassIndex v) 0 := by
  refine ⟨?_, rfl, rfl, rfl⟩
  unfold versionClassIndex
  split
  · omega
  · split <;> omega

/-- C8 (witness): the class index at version 10. -/
theorem C8_version_class_index_witness :
    1 ≤ 10 ∧ 10 ≤ 40 ∧
    (versionClassIndex 10 = (if 10 ≤ 9 then 0 else if 10 ≤ 26 then 1 else 2) ∧
      Mode.get_num_char_count_bits Mode.Numeric 10 =
        NUMERIC.getD (versionClassIndex 10) 0 ∧
      Mode.get_num_char_count_bits Mode.Alphanumeric 10 =
        NUMERIC.getD (versionClassIndex 10) 0 ∧
      Mode.get_num_char_count_bits Mode.Byte 10 =
        NUMERIC.getD (versionClassIndex 10) 0) :=
  ⟨by decide, by decide, C8_version_class_index 10 (by decide) (by decide)⟩

/-- C9: whenever `to_matrix` succeeds, the matrix is square: it has as many
rows as the symbol's side length and every row has that length. -/
theorem C9_to_matrix_square (encode : List Nat → QrCodeEcc → Option QrCode)
    (data : List Nat) (ecc : QrCodeEcc) (m : List (List Bool))
    (h : to_matrix encode data ecc = some m) :
    ∃ qr, generate_qrcode encode data ecc = some qr ∧
      m.length = qr.size ∧ ∀ row ∈ m, row.length = qr.size := by
  unfold to_matrix at h
  cases hq : generate_qrcode encode data ecc with
  | none => rw [hq] at h; cases h
  | some qr =>
    rw [hq, Option.map_some'] at h
    refine ⟨qr, rfl, ?_, ?_⟩
    · rw [← Option.some_inj.mp h]
      simp [to_matrix_inner]
    · intro row hr
      rw [← Option.some_inj.mp h] at hr
      unfold to_matrix_inner at hr
      rw [List.mem_map] at hr
      obtain ⟨y, _, hy⟩ := hr
      rw [← hy]
      simp

/-- C9 (witness): a concrete 2×2 symbol through `to_matrix`. -/
theorem C9_to_matrix_square_witness :
    to_matrix (fun _ _ => some ⟨2, fun _ _ => true⟩) [] QrCodeEcc.Low =
      some [[true, true], [true, true]] ∧
    ∃ qr, generate_qrcode (fun _ _ => some ⟨2, fun _ _ => true⟩) []
        QrCodeEcc.Low = some qr ∧
      ([[true, true], [true, true]] : List (List Bool)).length = qr.size ∧
      ∀ row ∈ ([[true, true], [true, true]] : List (List Bool)),
        row.length = qr.size :=
  ⟨rfl, C9_to_matrix_square _ _ _ _ rfl⟩

theorem foldl_length_eq {β : Type} (f : List Nat → β → List Nat)
    (hf : ∀ b a, (f b a).length = b.length) :
    ∀ (l : List β) (buf : List Nat), (l.foldl f buf).length = buf.length := by
  intro l
  induction l with
  | nil => intro buf; rfl
  | cons a l ih => intro buf; rw [List.foldl_cons, ih, hf]

theorem foldl_mem_of_mem {β : Type} (f : List Nat → β → List Nat)
    (hf : ∀ b a x, x ∈ f b a → x ∈ b ∨ x = 0) :
    ∀ (l : List β) (buf : List Nat) (x : Nat),
      x ∈ l.foldl f buf → x ∈ buf ∨ x = 0 := by
  intro l
  induction l with
  | nil => intro buf x hx; exact Or.inl hx
  | cons a l ih =>
    intro buf x hx
    rw [List.foldl_cons] at hx
    rcases ih _ x hx with h | h
    · exact hf _ _ _ h
    · exact Or.inr h

theorem paintSquare_length (buf : List Nat) (size x y ps : Nat) :
    (paintSquare buf size x y ps).length = buf.length := by
  unfold paintSquare
  apply foldl_length_eq
  intro b a
  apply foldl_length_eq
  intro b' a'
  exact List.length_set b' _ _

theorem paintSquare_mem (buf : List Nat) (size x y ps : Nat) (v : Nat)
    (hv : v ∈ paintSquare buf size x y ps) : v ∈ buf ∨ v = 0 := by
  revert hv
  unfold paintSquare
  apply foldl_mem_of_mem
  intro b a w hw
  revert hw
  apply foldl_mem_of_mem
  intro b' a' w' hw'
  exact List.mem_or_eq_of_mem_set hw'

/-- C10: when QR generation succeeds with a symbol of side length
`qr.size`, `to_image` fails with "the size is too small" exactly when
`size / (qr.size + 2) = 0`, and on success the buffer has `size * size`
bytes, each either 0 or 255. -/
theorem C10_to_image_buffer (encode : List Nat → QrCodeEcc → Option QrCode)
    (data : List Nat) (ecc : QrCodeEcc) (size : Nat) (qr : QrCode)
    (buf : List Nat) (hq : generate_qrcode encode data ecc = some qr) :
    (to_image encode data ecc size = Except.error "the size is too small" ↔
      size / (qr.size + 2) = 0) ∧
    (to_image encode data ecc size = Except.ok buf →
      buf.length = size * size ∧ ∀ b ∈ buf, b = 0 ∨ b = 255) := by
  have him : to_image encode data ecc size = to_image_inner qr size := by
    unfold to_image
    rw [hq]
  rw [him]
  unfold to_image_inner
  dsimp only
  have hd : qr.size + 2 * 1 = qr.size + 2 := rfl
  rw [hd]
  by_cases h : size / (qr.size + 2) = 0
  · rw [if_pos h]
    refine ⟨by simp [h], ?_⟩
    intro hok
    cases hok
  · rw [if_neg h]
    constructor
    · constructor
      · intro he
        cases he
      · intro he
        exact absurd he h
    · intro hok
      have hbuf : _ = buf := Except.ok.inj hok
      constructor
      · rw [← hbuf]
        rw [foldl_length_eq]
        · exact List.length_replicate _ _
        · intro b a
          apply foldl_length_eq
          intro b' a'
          split
          · exact paintSquare_length _ _ _ _ _
          · rfl
      · intro b hb
        rw [← hbuf] at hb
        have hmem : b ∈ List.replicate (size * size) (255 : Nat) ∨ b = 0 := by
          revert hb
          apply foldl_mem_of_mem
          intro bb aa w hw
          revert hw
          apply foldl_mem_of_mem
          intro bb' aa' w' hw'
          revert hw'
          split
          · intro hw'
            exact paintSquare_mem _ _ _ _ _ _ hw'
          · intro hw'
            exact Or.inl hw'
        rcases hmem with hm | hm
        · exact Or.inr (List.eq_of_mem_replicate hm)
        · exact Or.inl hm

/-- C10 (witness): a 1-module symbol rendered at image size 3. -/
theorem C10_to_image_buffer_witness :
    (to_image (fun _ _ => some ⟨1, fun _ _ => true⟩) [] QrCodeEcc.Low 3 =
        Except.error "the size is too small" ↔
      3 / ((⟨1, fun _ _ => true⟩ : QrCode).size + 2) = 0) ∧
    (to_image (fun _ _ => some ⟨1, fun _ _ => true⟩) [] QrCodeEcc.Low 3 =
        Except.ok [255, 255, 255, 255, 0, 255, 255, 255, 255] →
      ([255, 255, 255, 255, 0, 255, 255, 255, 255] : List Nat).length = 3 * 3 ∧
      ∀ b ∈ ([255, 255, 255, 255, 0, 255, 255, 255, 255] : List Nat),
        b = 0 ∨ b = 255) :=
  C10_to_image_buffer _ [] QrCodeEcc.Low 3 ⟨1, fun _ _ => true⟩
    [255, 255, 255, 255, 0, 255, 255, 255, 255] rfl
